import Mathlib

/-!
Shallow embedding of the memento-mori CLI download/extraction core
(src/bin/mb.py and src/bin/assets.py), with theorems about its planning,
validation, pattern-matching, draining and layout behavior.

Filesystem state is passed explicitly: a `String → Bool` predicate models
which destination files exist, and a `Bool` models whether a directory
exists.  Network fetches are modelled by `Except`-valued completion lists
given in completion order. Bytes are an arbitrary type `D`, errors `E`.
-/

/-! ## Pattern matcher: Python fnmatch + os.path.normcase, as used by
`Find.iter_matching_contents` (src/bin/assets.py:112-125) and by
`fnmatch.filter` in `All._get_paths` (src/bin/mb.py:116-119). -/

/-- One token of a compiled glob pattern, following `fnmatch.translate`:
`*`, `?`, character classes `[...]` (optional leading `!` negation, literal
`]` allowed as first member, `a-z` ranges), and literal characters. -/
inductive GlobTok where
  | lit (c : Char)
  | star
  | any
  | cls (negated : Bool) (members : List Char)
deriving Repr, DecidableEq

/-- Scan class members up to the closing `]`; `none` when it is missing
(in which case `fnmatch.translate` treats `[` as a literal). -/
def scanClass : List Char → Option (List Char × List Char)
  | [] => none
  | ']' :: rest => some ([], rest)
  | c :: rest =>
    match scanClass rest with
    | some (stuff, rest1) => some (c :: stuff, rest1)
    | none => none

/-- Optional leading `!` of a character class (negation). -/
def classFlag : List Char → Bool × List Char
  | '!' :: t => (true, t)
  | ps => (false, ps)

/-- A `]` directly after `[` (or after `[!`) is a literal class member. -/
def classFirst : List Char → List Char × List Char
  | ']' :: t => ([']'], t)
  | ps => ([], ps)

/-- Parse the inside of a character class, as `fnmatch.translate` scans it:
returns (negated, members, rest-of-pattern) or `none` when no `]` closes it. -/
def parseClass (ps : List Char) : Option (Bool × List Char × List Char) :=
  match scanClass (classFirst (classFlag ps).2).2 with
  | some (stuff, rest) => some ((classFlag ps).1, (classFirst (classFlag ps).2).1 ++ stuff, rest)
  | none => none

/-- Tokenize a glob pattern; the fuel is an upper bound on the number of
tokens (each token consumes at least one character, so the pattern length
suffices and the zero-fuel branch is never reached from `tokenize`). -/
def tokenizeAux : Nat → List Char → List GlobTok
  | 0, _ => []
  | _ + 1, [] => []
  | fuel + 1, '*' :: ps => GlobTok.star :: tokenizeAux fuel ps
  | fuel + 1, '?' :: ps => GlobTok.any :: tokenizeAux fuel ps
  | fuel + 1, '[' :: ps =>
    match parseClass ps with
    | some (neg, stuff, rest) => GlobTok.cls neg stuff :: tokenizeAux fuel rest
    | none => GlobTok.lit '[' :: tokenizeAux fuel ps
  | fuel + 1, c :: ps => GlobTok.lit c :: tokenizeAux fuel ps

/-- Compile a glob pattern to tokens (the model of `fnmatch._compile_pattern`). -/
def tokenize (ps : List Char) : List GlobTok :=
  tokenizeAux ps.length ps

/-- Membership in a character class, with `a-z` ranges as in the regex
`fnmatch.translate` emits; a `-` without a right endpoint is a literal. -/
def inClass : List Char → Char → Bool
  | x :: '-' :: y :: rest, c => (x ≤ c && c ≤ y) || inClass rest c
  | x :: rest, c => (x == c) || inClass rest c
  | [], _ => false

/-- All suffixes of a character list, longest first (ending with `[]`). -/
def suffixes : List Char → List (List Char)
  | [] => [[]]
  | c :: cs => (c :: cs) :: suffixes cs

/-- Full-string glob match (the compiled regex is anchored at both ends):
`*` matches any sequence of characters — including `/`, since
`fnmatch.translate` compiles it to `.*` with DOTALL — and `?` any single
character. -/
def tokMatch : List GlobTok → List Char → Bool
  | [], cs => cs.isEmpty
  | GlobTok.star :: ts, cs => (suffixes cs).any (fun rest => tokMatch ts rest)
  | GlobTok.any :: ts, cs =>
    match cs with
    | [] => false
    | _ :: cs1 => tokMatch ts cs1
  | GlobTok.cls neg stuff :: ts, cs =>
    match cs with
    | [] => false
    | c :: cs1 => (inClass stuff c != neg) && tokMatch ts cs1
  | GlobTok.lit p :: ts, cs =>
    match cs with
    | [] => false
    | c :: cs1 => (p == c) && tokMatch ts cs1

/-- `os.path.normcase`: the identity on posix; with the nt convention it
replaces `/` by `\` and lowercases. The platform, not a command option,
selects which one runs (`os.path is posixpath` in the source). -/
def normcase (isPosix : Bool) (s : List Char) : List Char :=
  if isPosix then s else s.map (fun c => if c == '/' then '\\' else c.toLower)

/-- `Find.iter_matching_contents` (src/bin/assets.py:112-125): the pattern is
normcased and compiled once; on posix each candidate content path is matched
raw, otherwise it is normcased first. `contents` holds the
(bundle source path, content path) pairs of `iter_bundle_contents`. -/
def Assets.Find.iter_matching_contents (isPosix : Bool) (pattern : String)
    (contents : List (String × String)) : List (String × String) :=
  let compiled := tokenize (normcase isPosix pattern.toList)
  if isPosix then
    contents.filter (fun sc => tokMatch compiled sc.2.toList)
  else
    contents.filter (fun sc => tokMatch compiled (normcase false sc.2.toList))

/-- `fnmatch.filter(names, pat)` as called by `All._get_paths`
(src/bin/mb.py:116-119): same normcase treatment as above. -/
def fnfilter (isPosix : Bool) (names : List String) (pat : String) : List String :=
  let compiled := tokenize (normcase isPosix pat.toList)
  if isPosix then names.filter (fun n => tokMatch compiled n.toList)
  else names.filter (fun n => tokMatch compiled (normcase false n.toList))

/-! ## Path layout: pathlib joins used by `Save._save` (src/bin/mb.py:61-65)
and `Save.bundles` (src/bin/assets.py:60-69). -/

/-- Whether a posix path string is absolute (its first character is `/`). -/
def isAbsolute (p : String) : Bool :=
  match p.toList with
  | '/' :: _ => true
  | _ => false

/-- `pathlib.Path.joinpath` with a single component: an absolute component
replaces the base, a relative one is appended with a `/` separator. -/
def joinpath (base p : String) : String :=
  if isAbsolute p then p else base ++ "/" ++ p

/-- `pathlib.Path.parent` of a relative path string: drops the final
component; a single-component relative path has parent `.`. -/
def parentPath (s : String) : String :=
  match s.toList.reverse.dropWhile (fun c => c != '/') with
  | [] => "."
  | _ :: rest => String.mk rest.reverse

/-! ## mb.py `Save` / `File` / `All` commands. -/

/-- How `File.main` terminates (src/bin/mb.py:72-78). -/
inductive FileOutcome where
  | alreadyExistsError
  | validationError
  | saved
deriving Repr, DecidableEq

/-- Observable effects of the single-file download. -/
structure FileEffects where
  outcome : FileOutcome
  fetchCalls : Nat
  writes : List String
deriving Repr, DecidableEq

/-- `Save._save` destination (src/bin/mb.py:62): `self.output.joinpath(name)`. -/
def Mb.Save.save_path (output name : String) : String :=
  joinpath output name

/-- Effects of one `Save._save` call (src/bin/mb.py:61-65): the parent of the
destination is created (`parents=True, exist_ok=True`), then the bytes are
written at the destination. -/
structure SaveEffect where
  mkdir_parents : String
  write : String
deriving Repr, DecidableEq

/-- `Save._save` (src/bin/mb.py:61-65). -/
def Mb.Save.save (output name : String) : SaveEffect :=
  ⟨parentPath (Mb.Save.save_path output name), Mb.Save.save_path output name⟩

/-- `File.main` (src/bin/mb.py:72-78): the skip-existing gate runs first
(`not force and output/name exists` raises the already-exists RuntimeError),
then validation (`not skip_validation and no DownloadRawDataMB row has
FilePath == name` raises ValueError), and only then one `get_raw_data` fetch
followed by one `_save` write. `exists_out n` models
`self.output.joinpath(n).exists()`; `rows` holds the manifest FilePath values. -/
def Mb.File.main (force skip_validation : Bool) (exists_out : String → Bool)
    (rows : List String) (output name : String) : FileEffects :=
  if !force && exists_out name then
    ⟨FileOutcome.alreadyExistsError, 0, []⟩
  else if !skip_validation && !(rows.any (fun fp => fp == name)) then
    ⟨FileOutcome.validationError, 0, []⟩
  else
    ⟨FileOutcome.saved, 1, [Mb.Save.save_path output name]⟩

/-- `All._get_paths` (src/bin/mb.py:109-123): with force, every manifest
FilePath; otherwise only those whose destination does not exist; then the
optional glob filter, then the optional limit — Python truthiness means an
empty pattern or a zero limit is skipped, as in `if self.pattern:` /
`if self.limit:`. -/
def Mb.All.get_paths (isPosix force : Bool) (rows : List String)
    (exists_out : String → Bool) (pattern : Option String)
    (limit : Option Nat) : List String :=
  let to_download := if force then rows else rows.filter (fun p => !exists_out p)
  let to_download :=
    match pattern with
    | some pat => if pat = "" then to_download else fnfilter isPosix to_download pat
    | none => to_download
  match limit with
  | some l => if l = 0 then to_download else to_download.take l
  | none => to_download

/-- The drain loop of `All._download` (src/bin/mb.py:102-107): completions are
consumed in completion order; each successful result is saved to
`output/<path>`; the first `future.result()` that raises propagates out of the
loop, so completions after it are never saved (their fetch tasks still ran). -/
def Mb.All.download (output : String) {E D : Type} :
    List (String × Except E D) → List (String × D) × Option E
  | [] => ([], none)
  | (p, Except.ok d) :: rest =>
    let r := Mb.All.download output rest
    ((Mb.Save.save_path output p, d) :: r.1, r.2)
  | (_, Except.error e) :: _ => ([], some e)

/-- Observable effects of a fetch-orchestration run. -/
structure RunEffects (D : Type) where
  fetchCalls : List String
  writes : List (String × D)
deriving Repr, DecidableEq

/-- `All.main` (src/bin/mb.py:87-100): an empty plan returns at once; with
`dry_run` the plan is only reported (printed), nothing fetched or written;
otherwise every planned path is submitted to the executor (one fetch each)
and the completions — listed here in completion order — are drained. -/
def Mb.All.main (isPosix force : Bool) (rows : List String)
    (exists_out : String → Bool) (pattern : Option String) (limit : Option Nat)
    (dry_run : Bool) (output : String) {E D : Type}
    (completions : List (String × Except E D)) : RunEffects D :=
  let paths := Mb.All.get_paths isPosix force rows exists_out pattern limit
  if paths.isEmpty then ⟨[], []⟩
  else if dry_run then ⟨[], []⟩
  else ⟨paths, (Mb.All.download output completions).1⟩

/-! ## assets.py `Save` / `Extract` commands. -/

/-- `Save._get_bundle_names` (src/bin/assets.py:71-79): when force is set or
`output/bundles` does not exist, the full catalog bundle list is returned —
with neither the exists-filter nor the limit applied; otherwise the names
whose file is absent from `output/bundles`, truncated by the (truthy) limit.
`exists_in_out n` models `out_dir.joinpath(n).exists()`. -/
def Assets.Save.get_bundle_names (force out_dir_exists : Bool)
    (bundle_names : List String) (exists_in_out : String → Bool)
    (limit : Option Nat) : List String :=
  if force || !out_dir_exists then bundle_names
  else
    let to_download := bundle_names.filter (fun n => !exists_in_out n)
    match limit with
    | some l => if l = 0 then to_download else to_download.take l
    | none => to_download

/-- Planning as `Save.bundles` performs it (src/bin/assets.py:57-63): the
action creates `output/bundles` (`mkdir(parents=True, exist_ok=True)`)
before calling `_get_bundle_names`, so planning always sees the bundles
directory existing. -/
def Assets.Save.bundles_plan (force : Bool) (bundle_names : List String)
    (exists_in_out : String → Bool) (limit : Option Nat) : List String :=
  Assets.Save.get_bundle_names force true bundle_names exists_in_out limit

/-- Destination of one downloaded bundle (src/bin/assets.py:60,67):
`out_dir = output/bundles`, `out_path = out_dir/name`. -/
def Assets.Save.bundle_out_path (output name : String) : String :=
  joinpath (joinpath output "bundles") name

/-- The `as_completed` drain loop of `Save.bundles` (src/bin/assets.py:65-69):
successes are written to their bundle path in completion order; the first
`future.result()` that raises propagates and aborts the loop. The executor
shutdown still waits for outstanding fetch tasks, but nothing writes their
results. -/
def Assets.Save.bundles_drain (output : String) {E D : Type} :
    List (String × Except E D) → List (String × D) × Option (String × E)
  | [] => ([], none)
  | (name, Except.ok d) :: rest =>
    let r := Assets.Save.bundles_drain output rest
    ((Assets.Save.bundle_out_path output name, d) :: r.1, r.2)
  | (name, Except.error e) :: _ => ([], some (name, e))

/-- `Extract.main` (src/bin/assets.py:134-144): one isolated worker process
per source path, `wait(futures)` blocks until every task finishes — no early
return on a failure, and no failure cancels or affects a sibling worker.
The per-source outcome record is Modelled from the spec: the worker body
(`BundleExtractor.extract_bundle` and its error reporting, in `mm.assets`)
is outside src/bin, so it is abstracted as the supplied `extract_bundle`
capability whose per-source outcome is collected. -/
def Assets.Extract.main {α E : Type} (sources : List α)
    (extract_bundle : α → Except E Unit) : List (α × Except E Unit) :=
  sources.map (fun s => (s, extract_bundle s))

/-- Whether one extraction task failed. -/
def extractFailed {α E : Type} (r : α × Except E Unit) : Bool :=
  match r.2 with
  | Except.error _ => true
  | Except.ok _ => false

/-! ## Helper lemmas. -/

/-- A bare `*` pattern matches every character list: the empty suffix always
remains and matches the empty rest of the pattern. -/
theorem tokMatch_star_nil (cs : List Char) : tokMatch [GlobTok.star] cs = true := by
  induction cs with
  | nil => rfl
  | cons c cs ih =>
    show ((c :: cs) :: suffixes cs).any (fun rest => tokMatch [] rest) = true
    rw [List.any_cons, Bool.or_eq_true]
    exact Or.inr ih

/-- A relative component is appended to the base with a `/` separator. -/
theorem joinpath_rel (base p : String) (hp : isAbsolute p = false) :
    joinpath base p = base ++ "/" ++ p := by
  simp [joinpath, hp]

/-! ## Claim theorems. -/

/-- C1: with force unset and a positive limit set, both planners return the
already-have-filtered subsequence of the candidates truncated to the first
`limit` entries after that filtering (in candidate order); in particular,
candidates [a,b,c,d] with only a already present and limit 2 plan exactly
[b,c]. -/
theorem limit_after_filter (isPosix : Bool) (rows bundle_names : List String)
    (have_raw have_bundle : String → Bool) (l : Nat) (hl : 0 < l) :
    Mb.All.get_paths isPosix false rows have_raw none (some l)
        = (rows.filter (fun p => !have_raw p)).take l
      ∧ Assets.Save.bundles_plan false bundle_names have_bundle (some l)
        = (bundle_names.filter (fun n => !have_bundle n)).take l
      ∧ Mb.All.get_paths true false ["a", "b", "c", "d"] (fun p => p == "a") none (some 2)
        = ["b", "c"]
      ∧ Assets.Save.bundles_plan false ["a", "b", "c", "d"] (fun n => n == "a") (some 2)
        = ["b", "c"] := by
  refine ⟨?_, ?_, by decide, by decide⟩
  · simp [Mb.All.get_paths, hl.ne']
  · simp [Assets.Save.bundles_plan, Assets.Save.get_bundle_names, hl.ne']

/-- Witness for the limit-after-filter theorem at concrete inputs. -/
theorem limit_after_filter_witness :
    Mb.All.get_paths true false ["a", "b", "c", "d"] (fun p => p == "a") none (some 2)
        = ((["a", "b", "c", "d"].filter (fun p => !(p == "a"))).take 2)
      ∧ Assets.Save.bundles_plan false ["a", "b", "c", "d"] (fun n => n == "a") (some 2)
        = ((["a", "b", "c", "d"].filter (fun n => !(n == "a"))).take 2)
      ∧ Mb.All.get_paths true false ["a", "b", "c", "d"] (fun p => p == "a") none (some 2)
        = ["b", "c"]
      ∧ Assets.Save.bundles_plan false ["a", "b", "c", "d"] (fun n => n == "a") (some 2)
        = ["b", "c"] :=
  limit_after_filter true ["a", "b", "c", "d"] ["a", "b", "c", "d"]
    (fun p => p == "a") (fun n => n == "a") 2 (by decide)

/-- C2 counterexample: with force set and limit 1, the bundle planner
(Save._get_bundle_names) returns the full candidate list instead of its
first `limit` entries. -/
theorem force_limit_counterexample :
    Assets.Save.bundles_plan true ["a", "b"] (fun _ => false) (some 1) = ["a", "b"]
      ∧ Assets.Save.bundles_plan true ["a", "b"] (fun _ => false) (some 1)
        ≠ ["a", "b"].take 1 :=
  ⟨by decide, by decide⟩

/-- C2 amended: with force set, both planners include every candidate with no
already-have exclusion; with a positive limit additionally set, the raw-data
planner truncates the plan to the first `limit` candidates, while the bundle
planner ignores the limit and returns the full candidate list. -/
theorem force_plan (isPosix : Bool) (rows bundle_names : List String)
    (have_raw have_bundle : String → Bool) (l : Nat) (hl : 0 < l) :
    Mb.All.get_paths isPosix true rows have_raw none none = rows
      ∧ Mb.All.get_paths isPosix true rows have_raw none (some l) = rows.take l
      ∧ Assets.Save.bundles_plan true bundle_names have_bundle none = bundle_names
      ∧ Assets.Save.bundles_plan true bundle_names have_bundle (some l) = bundle_names := by
  refine ⟨?_, ?_, ?_, ?_⟩
  · simp [Mb.All.get_paths]
  · simp [Mb.All.get_paths, hl.ne']
  · simp [Assets.Save.bundles_plan, Assets.Save.get_bundle_names]
  · simp [Assets.Save.bundles_plan, Assets.Save.get_bundle_names]

/-- Witness for the force-plan theorem at concrete inputs. -/
theorem force_plan_witness :
    Mb.All.get_paths true true ["a", "b"] (fun _ => false) none none = ["a", "b"]
      ∧ Mb.All.get_paths true true ["a", "b"] (fun _ => false) none (some 1)
        = ["a", "b"].take 1
      ∧ Assets.Save.bundles_plan true ["a", "b"] (fun _ => false) none = ["a", "b"]
      ∧ Assets.Save.bundles_plan true ["a", "b"] (fun _ => false) (some 1) = ["a", "b"] :=
  force_plan true ["a", "b"] ["a", "b"] (fun _ => false) (fun _ => false) 1 (by decide)

/-- C3 counterexample: name x/y.bin is absent from the manifest and validation
is not skipped, yet because the destination file already exists and force is
unset, File.main fails with the already-exists error, not ValidationError. -/
theorem validation_gate_counterexample :
    Mb.File.main false false (fun _ => true) [] "out" "x/y.bin"
        = ⟨FileOutcome.alreadyExistsError, 0, []⟩
      ∧ FileOutcome.alreadyExistsError ≠ FileOutcome.validationError :=
  ⟨by decide, by decide⟩

/-- C3 amended: when validation is not skipped, the requested name matches no
manifest FilePath, and the already-exists gate does not fire (force set or the
destination absent), File.main fails with ValidationError, invoking the fetch
capability zero times and writing nothing. -/
theorem validation_gate (force : Bool) (exists_out : String → Bool)
    (rows : List String) (output name : String)
    (hgate : force = true ∨ exists_out name = false)
    (hrows : rows.any (fun fp => fp == name) = false) :
    Mb.File.main force false exists_out rows output name
      = ⟨FileOutcome.validationError, 0, []⟩ := by
  rcases hgate with h | h <;> simp [Mb.File.main, h, hrows]

/-- Witness for the validation-gate theorem: empty manifest, absent file. -/
theorem validation_gate_witness :
    Mb.File.main false false (fun _ => false) [] "out" "x/y.bin"
      = ⟨FileOutcome.validationError, 0, []⟩ :=
  validation_gate false (fun _ => false) [] "out" "x/y.bin" (Or.inr rfl) (by decide)

/-- C4: with dry_run set, the run invokes the fetch capability zero times and
writes nothing, for any configuration whose plan is non-empty (everything is
only reported). -/
theorem dry_run_pure {E D : Type} (isPosix force : Bool) (rows : List String)
    (exists_out : String → Bool) (pattern : Option String) (limit : Option Nat)
    (output : String) (completions : List (String × Except E D))
    (_hne : Mb.All.get_paths isPosix force rows exists_out pattern limit ≠ []) :
    Mb.All.main isPosix force rows exists_out pattern limit true output completions
      = ⟨[], []⟩ := by
  simp [Mb.All.main]

/-- Witness for dry-run purity: one pending file, one available completion. -/
theorem dry_run_pure_witness :
    Mb.All.main true false ["a"] (fun _ => false) none none true "out"
        [("a", (Except.ok 3 : Except String Nat))]
      = ⟨[], []⟩ :=
  dry_run_pure true false ["a"] (fun _ => false) none none "out"
    [("a", (Except.ok 3 : Except String Nat))] (by decide)

/-- C5: the extraction orchestrator runs every submitted source to completion
(no early return on a failure), a failing source does not prevent the other
sources from being extracted, and the collected outcomes report exactly the
failing source. -/
theorem extract_isolation {α E : Type} (s1 s2 s3 : α) (e : E)
    (extract_bundle : α → Except E Unit)
    (h1 : extract_bundle s1 = Except.ok ())
    (h2 : extract_bundle s2 = Except.error e)
    (h3 : extract_bundle s3 = Except.ok ()) :
    Assets.Extract.main [s1, s2, s3] extract_bundle
        = [(s1, Except.ok ()), (s2, Except.error e), (s3, Except.ok ())]
      ∧ (Assets.Extract.main [s1, s2, s3] extract_bundle).filter extractFailed
        = [(s2, Except.error e)] := by
  constructor
  · simp [Assets.Extract.main, h1, h2, h3]
  · simp [Assets.Extract.main, h1, h2, h3, extractFailed]

/-- Witness: extracting three sources where only the second fails to parse. -/
theorem extract_isolation_witness :
    Assets.Extract.main ["s1", "s2", "s3"]
        (fun s => if s == "s2" then Except.error "ParseError" else Except.ok ())
        = [("s1", Except.ok ()), ("s2", Except.error "ParseError"),
            ("s3", Except.ok ())]
      ∧ (Assets.Extract.main ["s1", "s2", "s3"]
            (fun s => if s == "s2" then Except.error "ParseError" else Except.ok ())).filter
          extractFailed
        = [("s2", Except.error "ParseError")] :=
  extract_isolation "s1" "s2" "s3" "ParseError"
    (fun s => if s == "s2" then Except.error "ParseError" else Except.ok ())
    rfl rfl rfl

/-- C6 counterexample: the Find command exposes no case-folding option, and
with its whole configuration held fixed (pattern `*.PNG`, one bundle content
`icons/a.png`) the match outcome still changes with the host platform
convention — folding is decided per-OS, not by a configuration flag. -/
theorem case_policy_counterexample :
    Assets.Find.iter_matching_contents true "*.PNG" [("b.bundle", "icons/a.png")] = []
      ∧ Assets.Find.iter_matching_contents false "*.PNG" [("b.bundle", "icons/a.png")]
        = [("b.bundle", "icons/a.png")]
      ∧ Assets.Find.iter_matching_contents true "*.PNG" [("b.bundle", "icons/a.png")]
        ≠ Assets.Find.iter_matching_contents false "*.PNG" [("b.bundle", "icons/a.png")] :=
  ⟨by decide, by decide, by decide⟩

/-- C6 amended: case-folding follows the host platform convention
(os.path.normcase): under the folding (nt) convention, pattern `*.PNG`
matches Virtual Path `icons/a.png` in any bundle; under the posix convention,
comparison is byte-exact and it never does. -/
theorem case_policy (src : String) :
    Assets.Find.iter_matching_contents false "*.PNG" [(src, "icons/a.png")]
        = [(src, "icons/a.png")]
      ∧ Assets.Find.iter_matching_contents true "*.PNG" [(src, "icons/a.png")] = [] :=
  ⟨rfl, rfl⟩

/-- C7: the compiled matcher tests the whole slash-separated path string, not
per segment: a `*` matches across `/` (indeed it matches every string), `?`
and a character class each match a `/`, and pattern `a*.txt` matches the
Virtual Path `a/b/c.txt`. -/
theorem full_path_glob :
    (∀ s : String, tokMatch (tokenize "*".toList) s.toList = true)
      ∧ tokMatch (tokenize "?".toList) "/".toList = true
      ∧ tokMatch (tokenize "[/]".toList) "/".toList = true
      ∧ Assets.Find.iter_matching_contents true "a*.txt" [("b.bundle", "a/b/c.txt")]
        = [("b.bundle", "a/b/c.txt")] := by
  refine ⟨?_, by decide, by decide, by decide⟩
  intro s
  exact tokMatch_star_nil s.toList

/-- C8 counterexample: with completion order [n1 ok, n2 failed, n3 ok], the
drain writes only n1's bundle and aborts with n2's error; n3's fetched bytes
are never persisted — the consumer does not drain and aggregate. -/
theorem drain_abort_counterexample :
    Assets.Save.bundles_drain "o"
        [("n1", Except.ok 7), ("n2", Except.error "boom"),
          ("n3", (Except.ok 9 : Except String Nat))]
      = ([("o/bundles/n1", 7)], some ("n2", "boom"))
      ∧ ([("o/bundles/n1", 7)] : List (String × Nat))
        ≠ [("o/bundles/n1", 7), ("o/bundles/n3", 9)] :=
  ⟨by decide, by decide⟩

/-- C8 amended: the bundles drain persists exactly the successful completions
preceding the first failure, at their bundle paths and in completion order,
and aborts with that failure; completions after it (whose fetch tasks still
ran to completion during executor shutdown) are not persisted. -/
theorem drain_abort {E D : Type} (output : String) (pre : List (String × D))
    (n : String) (e : E) (post : List (String × Except E D)) :
    Assets.Save.bundles_drain output
        (pre.map (fun nd => (nd.1, Except.ok nd.2)) ++ (n, Except.error e) :: post)
      = (pre.map (fun nd => (Assets.Save.bundle_out_path output nd.1, nd.2)),
          some (n, e)) := by
  induction pre with
  | nil => rfl
  | cons hd tl ih =>
    obtain ⟨n1, d1⟩ := hd
    simp only [List.map_cons, List.cons_append, Assets.Save.bundles_drain,
      List.append_eq, ih]

/-- C9: a fetched bundle named n is written exactly to output/bundles/n, and a
fetched raw-data file with manifest FilePath p exactly to output/p (the
relative path appended to the output root), with the parent directory of the
raw-data destination created before the write. -/
theorem layout (output name p : String)
    (hn : isAbsolute name = false) (hp : isAbsolute p = false) :
    Assets.Save.bundle_out_path output name = output ++ "/bundles/" ++ name
      ∧ Mb.Save.save_path output p = output ++ "/" ++ p
      ∧ (Mb.Save.save output p).write = output ++ "/" ++ p
      ∧ (Mb.Save.save output p).mkdir_parents = parentPath (output ++ "/" ++ p) := by
  have hb : joinpath output "bundles" = output ++ "/" ++ "bundles" :=
    joinpath_rel output "bundles" rfl
  have h1 : Assets.Save.bundle_out_path output name
      = output ++ "/" ++ "bundles" ++ "/" ++ name := by
    rw [Assets.Save.bundle_out_path, hb, joinpath_rel _ _ hn]
  have h2 : output ++ "/" ++ "bundles" ++ "/" ++ name
      = output ++ "/bundles/" ++ name := by
    rw [String.append_assoc output "/" "bundles",
      String.append_assoc output ("/" ++ "bundles") "/",
      String.append_assoc "/" "bundles" "/"]
    exact rfl
  have hsp : Mb.Save.save_path output p = output ++ "/" ++ p :=
    joinpath_rel output p hp
  refine ⟨h1.trans h2, hsp, ?_, ?_⟩
  · show Mb.Save.save_path output p = output ++ "/" ++ p
    exact hsp
  · show parentPath (Mb.Save.save_path output p) = parentPath (output ++ "/" ++ p)
    rw [hsp]

/-- Witness for the layout theorem at concrete relative paths. -/
theorem layout_witness :
    Assets.Save.bundle_out_path "out" "n.bundle" = "out" ++ "/bundles/" ++ "n.bundle"
      ∧ Mb.Save.save_path "out" "a/b.bin" = "out" ++ "/" ++ "a/b.bin"
      ∧ (Mb.Save.save "out" "a/b.bin").write = "out" ++ "/" ++ "a/b.bin"
      ∧ (Mb.Save.save "out" "a/b.bin").mkdir_parents
        = parentPath ("out" ++ "/" ++ "a/b.bin") :=
  layout "out" "n.bundle" "a/b.bin" (by decide) (by decide)

/-- C10: the skip-existing gate precedes validation: with force unset and the
destination already existing, File.main fails with the already-exists error —
zero fetches, zero writes — for every manifest and validation flag; in
particular ValidationError is never raised for an already-present file. -/
theorem exists_gate_first (skip_validation : Bool) (exists_out : String → Bool)
    (rows : List String) (output name : String) (hex : exists_out name = true) :
    Mb.File.main false skip_validation exists_out rows output name
      = ⟨FileOutcome.alreadyExistsError, 0, []⟩ := by
  simp [Mb.File.main, hex]

/-- Witness: an existing destination wins over a manifest that lacks it. -/
theorem exists_gate_first_witness :
    Mb.File.main false false (fun _ => true) [] "out" "x/y.bin"
      = ⟨FileOutcome.alreadyExistsError, 0, []⟩ :=
  exists_gate_first false (fun _ => true) [] "out" "x/y.bin" rfl
